import Mathlib

/-!
Verification of `get-stale-packages-action` (src/main.go).

The development shallowly embeds the program:

* the semantic-version regular expression `semverRegExp` (main.go lines 22-27)
  is transcribed into a small regular-expression datatype matched with
  Brzozowski derivatives;
* `matchVersion` (main.go lines 154-171) and the staleness test of the main
  loop (lines 108-116) become Boolean functions; timestamps are integers
  counting seconds, and `packageTTL` is 7 days in seconds;
* the two nested pagination loops of `main` (lines 86-135) become fuel-indexed
  interpreters over an abstract query function
  `QueryVars → Option QueryResult` (`none` models a failed query, on which the
  Go code calls `githubactions.Fatalf` and the process dies);
* the GitHub GraphQL server is not part of the repository; it is modelled by
  `serve`: cursors are positions into the respective collection, the packages
  connection serves one package per page (the query hard-codes `last: 1`), and
  a `plan` function chooses how many versions go into each versions page;
* reading `ROBOT_TOKEN` / `GITHUB_REPOSITORY` and splitting on `/`
  (main.go lines 36-48) becomes `parseConfig`; the out-of-range index on a
  malformed repository string becomes the explicit outcome `panicIndexOOB`.
-/

namespace StalePackages

/-! ## Regular expressions via Brzozowski derivatives -/

/-- Regular expressions over characters; `cls p` matches one character
satisfying `p`. -/
inductive RE where
  | emp : RE
  | eps : RE
  | cls : (Char → Bool) → RE
  | alt : RE → RE → RE
  | cat : RE → RE → RE
  | star : RE → RE

/-- Does the regular expression accept the empty string? -/
def RE.nullable : RE → Bool
  | .emp => false
  | .eps => true
  | .cls _ => false
  | .alt r1 r2 => r1.nullable || r2.nullable
  | .cat r1 r2 => r1.nullable && r2.nullable
  | .star _ => true

/-- Smart alternation: drops `emp` summands (language-preserving). -/
def RE.altS : RE → RE → RE
  | .emp, r => r
  | r, .emp => r
  | r1, r2 => .alt r1 r2

/-- Smart concatenation: absorbs `emp` and drops `eps` (language-preserving). -/
def RE.catS : RE → RE → RE
  | .emp, _ => .emp
  | _, .emp => .emp
  | .eps, r => r
  | r, .eps => r
  | r1, r2 => .cat r1 r2

/-- Brzozowski derivative of a regular expression by one character. -/
def RE.deriv (r : RE) (c : Char) : RE :=
  match r with
  | .emp => .emp
  | .eps => .emp
  | .cls p => if p c then .eps else .emp
  | .alt r1 r2 => RE.altS (r1.deriv c) (r2.deriv c)
  | .cat r1 r2 =>
    if r1.nullable then RE.altS (RE.catS (r1.deriv c) r2) (r2.deriv c)
    else RE.catS (r1.deriv c) r2
  | .star r1 => RE.catS (r1.deriv c) (.star r1)

/-- Whole-string matching (the Go regular expression is anchored `^...$`,
so `regexp.MatchString` is full-string matching). -/
def RE.matches : RE → List Char → Bool
  | r, [] => r.nullable
  | r, c :: cs => (r.deriv c).matches cs

/-! ## The semver regular expression of main.go lines 22-27

`semverRegExp = "^(0|[1-9]\d*)\.(0|[1-9]\d*)\.(0|[1-9]\d*)`
`(?:-((0|[1-9]\d*|\d*[a-zA-Z-][0-9a-zA-Z-]*)(\.(0|[1-9]\d*|\d*[a-zA-Z-][0-9a-zA-Z-]*))*))?`
`(?:\+([0-9a-zA-Z-]+(\.[0-9a-zA-Z-]+)*))?$"` (named groups elided). -/

/-- Literal character. -/
def reChar (a : Char) : RE := .cls (fun c => c == a)

/-- `\d`. -/
def reDigit : RE := .cls Char.isDigit

/-- `[1-9]`. -/
def reNonZero : RE := .cls (fun c => '1' ≤ c && c ≤ '9')

/-- `[a-zA-Z-]`. -/
def reLetterHyphen : RE := .cls (fun c => c.isAlpha || c == '-')

/-- `[0-9a-zA-Z-]`. -/
def reAlnumHyphen : RE := .cls (fun c => c.isAlphanum || c == '-')

/-- `0|[1-9]\d*` — a numeric identifier without leading zeros. -/
def reNum : RE := .alt (reChar '0') (.cat reNonZero (.star reDigit))

/-- `0|[1-9]\d*|\d*[a-zA-Z-][0-9a-zA-Z-]*` — one pre-release identifier. -/
def rePreReleaseId : RE :=
  .alt (reChar '0')
    (.alt (.cat reNonZero (.star reDigit))
      (.cat (.star reDigit) (.cat reLetterHyphen (.star reAlnumHyphen))))

/-- `[0-9a-zA-Z-]+` — one build-metadata identifier. -/
def reBuildId : RE := .cat reAlnumHyphen (.star reAlnumHyphen)

/-- `r(\.r)*` — a non-empty dot-separated list. -/
def reDotSep (r : RE) : RE := .cat r (.star (.cat (reChar '.') r))

/-- `(?:r)?`. -/
def reOpt (r : RE) : RE := .alt .eps r

/-- The full anchored semver regular expression. -/
def semverRE : RE :=
  .cat reNum (.cat (reChar '.') (.cat reNum (.cat (reChar '.') (.cat reNum
    (.cat (reOpt (.cat (reChar '-') (reDotSep rePreReleaseId)))
      (reOpt (.cat (reChar '+') (reDotSep reBuildId))))))))

/-- `reg.MatchString(version)` of main.go line 156. -/
def semverMatch (s : String) : Bool := semverRE.matches s.data

/-! ## The staleness classifier -/

/-- `matchVersion` (main.go lines 154-171): returns `true` iff the tag is NOT
protected (does not match semver, `docker-base-layer` or `latest`). -/
def matchVersion (version : String) : Bool :=
  if semverMatch version then false
  else if version = "docker-base-layer" then false
  else if version = "latest" then false
  else true

/-- `packageTTL = 7 * 24 * time.Hour` (main.go line 19), in seconds. -/
def packageTTL : Int := 7 * 24 * 60 * 60

/-- The staleness decision of the main loop (main.go lines 108-116):
stale iff the tag is unprotected and `updatedAt.Before(now - packageTTL)`
(`time.Time.Before` is a strict comparison). -/
def isStale (tag : String) (updatedAt now : Int) : Bool :=
  matchVersion tag && decide (updatedAt < now - packageTTL)

/-! ## Data model of the query responses -/

/-- A version node as consumed by the loop of main.go lines 102-123:
`files(last: 1)` yields at most one file, so `file` is the most recent
file's `updatedAt` timestamp, `none` when the version has no files. -/
structure GVersion where
  id : String
  version : String
  file : Option Int
deriving DecidableEq, Repr

/-- A package of the repository dataset, with all its versions in order. -/
structure GPackage where
  id : String
  name : String
  versions : List GVersion
deriving DecidableEq, Repr

/-- `PageInfo` (main.go lines 183-186); the opaque `EndCursor` string is
modelled as a position. -/
structure PageInfo where
  endCursor : Nat
  hasNextPage : Bool
deriving DecidableEq, Repr

/-- One package node of a query response, carrying one page of its
versions connection. -/
structure ServedPackage where
  id : String
  name : String
  versionNodes : List GVersion
  versionsPageInfo : PageInfo
deriving DecidableEq, Repr

/-- One query response (the `query` struct of main.go lines 50-72). -/
structure QueryResult where
  packageNodes : List ServedPackage
  packagesPageInfo : PageInfo
deriving DecidableEq, Repr

/-- The cursor variables of one query call (main.go lines 74-79). -/
structure QueryVars where
  packagesCursor : Option Nat
  versionsCursor : Option Nat
deriving DecidableEq, Repr

/-! ## Server model

The GitHub GraphQL server is external to the repository. Following the
spec's cursor pagination (an opaque continuation token plus a has-more
flag), a cursor is the position of the first not-yet-served element of the
collection; `after = none` starts at position 0. The packages connection
serves one package per page (`packages(last: 1)` in the query); the
versions page sizes are chosen by `plan pkgIndex position + 1` (always at
least one version per page while versions remain). -/

/-- Position denoted by a cursor. -/
def cursorStart : Option Nat → Nat
  | none => 0
  | some n => n

/-- Serve one page of a package's versions connection. -/
def servePackage (plan : Nat → Nat → Nat) (pIdx : Nat) (p : GPackage)
    (vc : Option Nat) : ServedPackage :=
  let vStart := cursorStart vc
  let nodes := (p.versions.drop vStart).take (plan pIdx vStart + 1)
  let endC := vStart + nodes.length
  { id := p.id, name := p.name, versionNodes := nodes,
    versionsPageInfo :=
      { endCursor := endC, hasNextPage := decide (endC < p.versions.length) } }

/-- The modelled server: always succeeds, serving pages of `pkgs`. -/
def serve (pkgs : List GPackage) (plan : Nat → Nat → Nat)
    (v : QueryVars) : QueryResult :=
  let pIdx := cursorStart v.packagesCursor
  match pkgs[pIdx]? with
  | none =>
    { packageNodes := [],
      packagesPageInfo := { endCursor := pIdx, hasNextPage := false } }
  | some p =>
    { packageNodes := [servePackage plan pIdx p v.versionsCursor],
      packagesPageInfo :=
        { endCursor := pIdx + 1,
          hasNextPage := decide (pIdx + 1 < pkgs.length) } }

/-- A never-failing query function built from the server model. -/
def serveQ (pkgs : List GPackage) (plan : Nat → Nat → Nat) :
    QueryVars → Option QueryResult :=
  fun v => some (serve pkgs plan v)

/-! ## The traversal of main.go lines 83-139 -/

/-- The mutable state of `main`'s loops: the two cursor variables and the
accumulated `versions` slice of stale version ids. -/
structure LoopState where
  packagesCursor : Option Nat
  versionsCursor : Option Nat
  versions : List String
deriving DecidableEq, Repr

/-- The cursor variables passed to the next query call. -/
def queryVarsOf (st : LoopState) : QueryVars :=
  ⟨st.packagesCursor, st.versionsCursor⟩

/-- The body of the versions loop (main.go lines 102-123): skip a version
with no files, otherwise append its id when stale. -/
def processNode (now : Int) (acc : List String) (node : GVersion) :
    List String :=
  match node.file with
  | none => acc
  | some updatedAt =>
    if isStale node.version updatedAt now then acc ++ [node.id] else acc

/-- Outcome of the inner (versions pages) loop. `fatal` models
`githubactions.Fatalf` on a failed query; `fuelOut` is only an artefact of
the fuel-indexed interpreter. `pageDone` returns the state after the inner
loop's `break`, the last query response (whose packages `PageInfo` the
outer loop then inspects) and the trace of issued query variables. -/
inductive InnerOut where
  | fatal (trace : List QueryVars)
  | fuelOut (trace : List QueryVars)
  | pageDone (st : LoopState) (last : QueryResult) (trace : List QueryVars)
deriving DecidableEq, Repr

/-- The inner loop of main.go lines 88-129. One unit of fuel per query
call. An empty package-node list `break`s out of this inner loop only
(line 95); it does not by itself end the outer loop. -/
def runInner (query : QueryVars → Option QueryResult) (now : Int) :
    Nat → LoopState → InnerOut
  | 0, _ => .fuelOut []
  | fuel + 1, st =>
    let vars := queryVarsOf st
    match query vars with
    | none => .fatal [vars]
    | some res =>
      match res.packageNodes with
      | [] => .pageDone st res [vars]
      | pkg :: _ =>
        let st1 := { st with
          versions := pkg.versionNodes.foldl (processNode now) st.versions }
        if pkg.versionsPageInfo.hasNextPage then
          let st2 := { st1 with
            versionsCursor := some pkg.versionsPageInfo.endCursor }
          match runInner query now fuel st2 with
          | .fatal tr => .fatal (vars :: tr)
          | .fuelOut tr => .fuelOut (vars :: tr)
          | .pageDone st' last tr => .pageDone st' last (vars :: tr)
        else .pageDone st1 res [vars]

/-- Outcome of the whole traversal. -/
inductive RunOut where
  | fatal (trace : List QueryVars)
  | fuelOut (trace : List QueryVars)
  | ok (versions : List String) (trace : List QueryVars)
deriving DecidableEq, Repr

/-- The outer loop of main.go lines 86-135. After the inner loop exits, the
outer loop `break`s when the last response's packages page has no next page
(line 131); otherwise it advances the packages cursor (line 134) and loops.
The versions cursor is NOT reset between packages — exactly as in the
source, where `versionsCursor` is assigned only at line 78 and line 128. -/
def runOuter (query : QueryVars → Option QueryResult) (now : Int)
    (innerFuel : Nat) : Nat → LoopState → RunOut
  | 0, _ => .fuelOut []
  | fuel + 1, st =>
    match runInner query now innerFuel st with
    | .fatal tr => .fatal tr
    | .fuelOut tr => .fuelOut tr
    | .pageDone st1 last tr =>
      if last.packagesPageInfo.hasNextPage then
        let st2 := { st1 with
          packagesCursor := some last.packagesPageInfo.endCursor }
        match runOuter query now innerFuel fuel st2 with
        | .fatal tr2 => .fatal (tr ++ tr2)
        | .fuelOut tr2 => .fuelOut (tr ++ tr2)
        | .ok vs tr2 => .ok vs (tr ++ tr2)
      else .ok st1.versions tr

/-- Initial loop state (main.go lines 77-78, 83): both cursors nil and an
empty `versions` slice. -/
def initState : LoopState := ⟨none, none, []⟩

/-- Observable result of one run: either the `STALE_VERSIONS` value
published by `githubactions.SetEnv` (main.go line 139), or a fatal abort
with nothing published. -/
inductive RunResult where
  | published (value : String)
  | fatal
  | fuelOut
deriving DecidableEq, Repr

/-- The whole traversal plus the output step `strings.Join(versions, ", ")`
(main.go lines 137-139). -/
def runProgram (query : QueryVars → Option QueryResult) (now : Int)
    (innerFuel outerFuel : Nat) : RunResult :=
  match runOuter query now innerFuel outerFuel initState with
  | .ok vs _ => .published (String.intercalate ", " vs)
  | .fatal _ => .fatal
  | .fuelOut _ => .fuelOut

/-- The sequence of query variables issued by a run, in order. -/
def runTrace (query : QueryVars → Option QueryResult) (now : Int)
    (innerFuel outerFuel : Nat) : List QueryVars :=
  match runOuter query now innerFuel outerFuel initState with
  | .ok _ tr => tr
  | .fatal tr => tr
  | .fuelOut tr => tr

/-! ## Configuration parsing (main.go lines 36-48) -/

/-- Outcome of the startup configuration code. `panicIndexOOB` models the
out-of-range access `githubRepoSlice[1]` when the split produced a single
element. -/
inductive ConfigResult where
  | fatalEmptyToken
  | fatalEmptyRepo
  | panicIndexOOB
  | ok (owner name : String)
deriving DecidableEq, Repr

/-- `strings.Split` on a one-character separator: splits at every occurrence
of `sep`, keeping empty fields; the result is never empty. -/
def splitOnChar (sep : Char) : List Char → List (List Char)
  | [] => [[]]
  | c :: cs =>
    if c = sep then [] :: splitOnChar sep cs
    else
      match splitOnChar sep cs with
      | [] => [[c]]
      | chunk :: rest => (c :: chunk) :: rest

/-- main.go lines 36-48: check `ROBOT_TOKEN` and `GITHUB_REPOSITORY` for
emptiness, then split the repository on `/` and take elements 0 and 1. -/
def parseConfig (token githubRepo : String) : ConfigResult :=
  if token = "" then .fatalEmptyToken
  else if githubRepo = "" then .fatalEmptyRepo
  else
    match splitOnChar '/' githubRepo.data with
    | owner :: name :: _ => .ok (String.mk owner) (String.mk name)
    | _ => .panicIndexOOB

/-- Observable result of the whole action, configuration included. -/
inductive ActionResult where
  | configFatal
  | panicOOB
  | run (r : RunResult)
deriving DecidableEq, Repr

/-- The whole program: configuration first; only a successful parse reaches
the query loop. The second component is the trace of issued queries. -/
def runAction (token githubRepo : String)
    (query : QueryVars → Option QueryResult) (now : Int)
    (innerFuel outerFuel : Nat) : ActionResult × List QueryVars :=
  match parseConfig token githubRepo with
  | .fatalEmptyToken => (.configFatal, [])
  | .fatalEmptyRepo => (.configFatal, [])
  | .panicIndexOOB => (.panicOOB, [])
  | .ok _ _ =>
    (.run (runProgram query now innerFuel outerFuel),
      runTrace query now innerFuel outerFuel)

/-! ## Concrete datasets and query functions used in the theorems

Timestamps are seconds. With `exNow = 1000000`, a file at `0` is far older
than the 7-day TTL (`604800` seconds) and a file at `999999` is one second
old; a file at `136000` is exactly 10 days (864000 seconds) old. -/

/-- Every page as large as possible (the query asks for up to 100 versions;
no package here has more than 100). -/
def planOne : Nat → Nat → Nat := fun _ _ => 99

/-- One version per versions page. -/
def planSplit : Nat → Nat → Nat := fun _ _ => 0

/-- A reference current time. -/
def exNow : Int := 1000000

/-- Two packages: `P1` with two fresh (non-stale) pull-request versions,
`P2` with one stale pull-request version. -/
def exPkgs : List GPackage :=
  [⟨"P1", "pkg-one",
      [⟨"v11", "pr-1", some 999999⟩, ⟨"v12", "pr-2", some 999999⟩]⟩,
   ⟨"P2", "pkg-two", [⟨"v21", "pr-3", some 0⟩]⟩]

/-- The end-to-end dataset of the spec: one package, versions tagged
`v1.0.0` (file 10 days old), `pr-7` (no files), `pr-8` (file 10 days
old). -/
def e2ePkgsV : List GPackage :=
  [⟨"P", "pkg",
      [⟨"idA", "v1.0.0", some 136000⟩, ⟨"idB", "pr-7", none⟩,
       ⟨"idC", "pr-8", some 136000⟩]⟩]

/-- The same dataset with the protective tag written `1.0.0`, which does
match the semver grammar. -/
def e2ePkgs : List GPackage :=
  [⟨"P", "pkg",
      [⟨"idA", "1.0.0", some 136000⟩, ⟨"idB", "pr-7", none⟩,
       ⟨"idC", "pr-8", some 136000⟩]⟩]

/-- One package with two stale versions, served one per page. -/
def failPkgs : List GPackage :=
  [⟨"Q", "q", [⟨"q1", "pr-9", some 0⟩, ⟨"q2", "pr-10", some 0⟩]⟩]

/-- A query function that succeeds on the first versions page of each
package and fails on every later versions page. -/
def laterFailQ : QueryVars → Option QueryResult :=
  fun v => if v.versionsCursor = none then some (serve failPkgs planSplit v)
    else none

/-- A misbehaving server: every page of packages is empty but claims that
more pages exist. -/
def emptyMorePages : QueryVars → Option QueryResult :=
  fun v => some ⟨[], ⟨cursorStart v.packagesCursor + 1, true⟩⟩

/-- One package holding a version with no files followed by a stale
version. -/
def w5Pkgs : List GPackage :=
  [⟨"P", "p", [⟨"w5n", "pr-x", none⟩, ⟨"w5s", "pr-y", some 0⟩]⟩]

/-- One package with two stale versions in traversal order. -/
def joinPkgs : List GPackage :=
  [⟨"P", "p", [⟨"s1", "pr-a", some 0⟩, ⟨"s2", "pr-b", some 0⟩]⟩]

/-! ## Helper lemmas about the accumulator and the traversal -/

/-- One step of the versions loop appends `v.id` exactly when the version
has a (most recent) file and is stale. -/
lemma mem_processNode (now : Int) (acc : List String) (v : GVersion)
    (x : String) :
    x ∈ processNode now acc v ↔
      x ∈ acc ∨ (x = v.id ∧ ∃ t, v.file = some t ∧
        isStale v.version t now = true) := by
  obtain ⟨vid, vver, vfile⟩ := v
  cases vfile with
  | none =>
    rw [show processNode now acc ⟨vid, vver, none⟩ = acc from rfl]
    simp
  | some t =>
    rw [show processNode now acc ⟨vid, vver, some t⟩
        = (if isStale vver t now then acc ++ [vid] else acc) from rfl]
    by_cases hs : isStale vver t now = true
    · simp [hs]
    · simp [hs]

/-- Membership in the accumulator after a whole page of version nodes. -/
lemma mem_foldl_processNode (now : Int) (nodes : List GVersion) :
    ∀ (acc : List String) (x : String),
      x ∈ nodes.foldl (processNode now) acc ↔
        x ∈ acc ∨ ∃ v ∈ nodes, x = v.id ∧
          ∃ t, v.file = some t ∧ isStale v.version t now = true := by
  induction nodes with
  | nil => intro acc x; simp
  | cons v vs ih =>
    intro acc x
    rw [List.foldl_cons, ih, mem_processNode]
    simp only [List.mem_cons, or_assoc]
    constructor
    · rintro (h | h | h)
      · exact Or.inl h
      · exact Or.inr ⟨v, Or.inl rfl, h⟩
      · rcases h with ⟨w, hw, hrest⟩
        exact Or.inr ⟨w, Or.inr hw, hrest⟩
    · rintro (h | ⟨w, hw | hw, hrest⟩)
      · exact Or.inl h
      · subst hw
        exact Or.inr (Or.inl hrest)
      · exact Or.inr (Or.inr ⟨w, hw, hrest⟩)

/-- `x` was contributed by some query response: a served version node with
a most recent file that the classifier found stale. -/
def Contributed (query : QueryVars → Option QueryResult) (now : Int)
    (x : String) : Prop :=
  ∃ (vars : QueryVars) (res : QueryResult) (pkg : ServedPackage),
    query vars = some res ∧ res.packageNodes.head? = some pkg ∧
    ∃ v ∈ pkg.versionNodes, x = v.id ∧
      ∃ t, v.file = some t ∧ isStale v.version t now = true

/-- Every id in the state after the inner loop was already there or was
contributed by a served stale version with a file. -/
lemma runInner_mem (query : QueryVars → Option QueryResult) (now : Int) :
    ∀ (fuel : Nat) (st st' : LoopState) (last : QueryResult)
      (tr : List QueryVars),
      runInner query now fuel st = .pageDone st' last tr →
      ∀ x ∈ st'.versions, x ∈ st.versions ∨ Contributed query now x := by
  intro fuel
  induction fuel with
  | zero =>
    intro st st' last tr h x hx
    simp only [runInner] at h
    exact InnerOut.noConfusion h
  | succ n ih =>
    intro st st' last tr h x hx
    simp only [runInner] at h
    split at h
    · exact InnerOut.noConfusion h
    · rename_i res hq
      split at h
      · rename_i hn
        injection h with h1 h2 h3
        exact Or.inl (h1 ▸ hx)
      · rename_i pkg rest hn
        split at h
        · rename_i hnp
          split at h
          · exact InnerOut.noConfusion h
          · exact InnerOut.noConfusion h
          · rename_i st2 last2 tr2 hr
            injection h with h1 h2 h3
            rcases ih _ _ _ _ hr x (h1 ▸ hx) with hmem | hc
            · rcases (mem_foldl_processNode now pkg.versionNodes
                  st.versions x).mp hmem with hacc | ⟨v, hv, hrest⟩
              · exact Or.inl hacc
              · exact Or.inr ⟨queryVarsOf st, res, pkg, hq, by rw [hn]; rfl,
                  v, hv, hrest⟩
            · exact Or.inr hc
        · rename_i hnp
          injection h with h1 h2 h3
          rcases (mem_foldl_processNode now pkg.versionNodes
              st.versions x).mp (by rw [← h1] at hx; exact hx) with
            hacc | ⟨v, hv, hrest⟩
          · exact Or.inl hacc
          · exact Or.inr ⟨queryVarsOf st, res, pkg, hq, by rw [hn]; rfl,
              v, hv, hrest⟩

/-- Every id in the final stale set was in the initial state or was
contributed by a served stale version with a file. -/
lemma runOuter_mem (query : QueryVars → Option QueryResult) (now : Int)
    (innerFuel : Nat) :
    ∀ (fuel : Nat) (st : LoopState) (out : List String)
      (tr : List QueryVars),
      runOuter query now innerFuel fuel st = .ok out tr →
      ∀ x ∈ out, x ∈ st.versions ∨ Contributed query now x := by
  intro fuel
  induction fuel with
  | zero =>
    intro st out tr h x hx
    simp only [runOuter] at h
    exact RunOut.noConfusion h
  | succ n ih =>
    intro st out tr h x hx
    simp only [runOuter] at h
    split at h
    · exact RunOut.noConfusion h
    · exact RunOut.noConfusion h
    · rename_i st1 last tr1 hr
      split at h
      · rename_i hnp
        split at h
        · exact RunOut.noConfusion h
        · exact RunOut.noConfusion h
        · rename_i vs2 tr2 hr2
          injection h with h1 h2
          subst h1
          rcases ih _ _ _ hr2 x hx with hmem | hc
          · exact runInner_mem query now innerFuel st st1 last tr1 hr x hmem
          · exact Or.inr hc
      · rename_i hnp
        injection h with h1 h2
        subst h1
        exact runInner_mem query now innerFuel st st1 last tr1 hr x hx

/-- A served versions page only contains versions of the served package. -/
lemma servePackage_subset (plan : Nat → Nat → Nat) (pIdx : Nat)
    (p : GPackage) (vc : Option Nat) :
    ∀ v ∈ (servePackage plan pIdx p vc).versionNodes, v ∈ p.versions := by
  intro v hv
  exact List.drop_subset _ _ (List.take_subset _ _ hv)

/-- The head package node of a response of the modelled server serves the
versions of one of the dataset's packages. -/
lemma serve_head (pkgs : List GPackage) (plan : Nat → Nat → Nat)
    (vars : QueryVars) (pkg : ServedPackage)
    (h : (serve pkgs plan vars).packageNodes.head? = some pkg) :
    ∃ p ∈ pkgs, ∀ v ∈ pkg.versionNodes, v ∈ p.versions := by
  simp only [serve] at h
  cases hp : pkgs[cursorStart vars.packagesCursor]? with
  | none => rw [hp] at h; simp at h
  | some p =>
    rw [hp] at h
    simp only [List.head?_cons, Option.some.injEq] at h
    refine ⟨p, List.getElem?_mem hp, ?_⟩
    intro v hv
    rw [← h] at hv
    exact servePackage_subset plan _ p _ v hv

/-! ## Claim theorems -/

/-- Claim C1: `matchVersion` (the negation of tag protection) reports a tag
as protected — returns `false` — exactly when the tag matches the semver
regular expression or is the literal `latest` or `docker-base-layer`; the
empty string, a string of unexpected characters, a `v`-prefixed or
leading-zero version are not protected, and valid semver tags with
pre-release and build-metadata suffixes are. -/
theorem c1_protected_tags :
    (∀ v : String,
      matchVersion v = false ↔
        (semverMatch v = true ∨ v = "latest" ∨ v = "docker-base-layer"))
    ∧ matchVersion "" = true
    ∧ matchVersion "pr 42/$!" = true
    ∧ matchVersion "v1.0.0" = true
    ∧ matchVersion "01.2.3" = true
    ∧ matchVersion "1.2.3" = false
    ∧ matchVersion "1.2.3-beta.1" = false
    ∧ matchVersion "1.2.3+build.5" = false
    ∧ matchVersion "1.1.2-prerelease+meta" = false
    ∧ matchVersion "latest" = false
    ∧ matchVersion "docker-base-layer" = false := by
  refine ⟨fun v => ?_, by decide, by decide, by decide, by decide, by decide,
    by decide, by decide, by decide, by decide, by decide⟩
  unfold matchVersion
  by_cases h1 : semverMatch v = true
  · simp [h1]
  · by_cases h2 : v = "docker-base-layer"
    · simp [h1, h2]
    · by_cases h3 : v = "latest"
      · simp [h1, h2, h3]
      · simp [h1, h2, h3]

/-- Claim C2: a version is stale iff its tag is unprotected and its most
recent file timestamp is strictly older than `now - packageTTL`; at the
boundary, 7 days plus one second old is stale, exactly 7 days old is not
(strict comparison), and 7 days minus one second old is not. -/
theorem c2_staleness_rule :
    (∀ (tag : String) (u now : Int),
      isStale tag u now = true ↔
        (matchVersion tag = true ∧ u < now - packageTTL))
    ∧ (∀ now : Int,
        isStale "pr-42" (now - packageTTL - 1) now = true
        ∧ isStale "pr-42" (now - packageTTL) now = false
        ∧ isStale "pr-42" (now - packageTTL + 1) now = false) := by
  constructor
  · intro tag u now
    simp [isStale]
  · intro now
    have h : matchVersion "pr-42" = true := by decide
    refine ⟨?_, ?_, ?_⟩
    · simp [isStale, h]
    · simp [isStale, h]
    · simp [isStale, h]

/-- A failed query makes the inner loop abort at once with the fatal
outcome (main.go lines 89-92). -/
lemma runInner_fatal (query : QueryVars → Option QueryResult) (now : Int)
    (fI : Nat) (st : LoopState)
    (hq : query (queryVarsOf st) = none) :
    runInner query now (fI + 1) st = .fatal [queryVarsOf st] := by
  simp only [runInner, hq]

/-- Claim C3 (the code violates it): the stale set is NOT independent of
page boundaries. On the dataset `exPkgs` — package `P1` with two fresh
versions, package `P2` with one stale version `v21` — serving every
package's versions in one page finds `v21`, but splitting `P1`'s versions
into two pages makes the versions cursor leak into `P2`'s versions
connection (it is never reset), so `P2`'s only version is skipped and the
stale set comes out empty. -/
theorem c3_pagination_dependence :
    runProgram (serveQ exPkgs planOne) exNow 9 9 = .published "v21"
    ∧ runProgram (serveQ exPkgs planSplit) exNow 9 9 = .published ""
    ∧ runProgram (serveQ exPkgs planSplit) exNow 9 9
        ≠ runProgram (serveQ exPkgs planOne) exNow 9 9 := by
  refine ⟨by decide, by decide, by decide⟩

/-- Claim C4 is false as stated: the tag `v1.0.0` does not match the
anchored semver regular expression (no leading `v` is allowed), so with a
10-day-old file the version `idA` is classified stale and the output is
`"idA, idC"`, not exactly `pr-8`'s identifier. -/
theorem c4_counterexample :
    runProgram (serveQ e2ePkgsV planOne) exNow 9 9 = .published "idA, idC"
    ∧ runProgram (serveQ e2ePkgsV planOne) exNow 9 9
        ≠ .published "idC" := by
  refine ⟨by decide, by decide⟩

/-- Claim C4 amended: with a protective tag that actually matches the
semver grammar (`1.0.0`), the end-to-end scenario holds: `idA` is retained
despite its 10-day-old file, the file-less `idB` (`pr-7`) is skipped, and
the output is exactly `pr-8`'s identifier `idC`. -/
theorem c4_end_to_end_amended :
    semverMatch "v1.0.0" = false
    ∧ semverMatch "1.0.0" = true
    ∧ runProgram (serveQ e2ePkgs planOne) exNow 9 9 = .published "idC" := by
  refine ⟨by decide, by decide, by decide⟩

/-- Claim C5: a version with no files is never added to the stale set —
locally, the loop body leaves the accumulator unchanged on a file-less
node, and globally every id in a successful run's output comes from a
dataset version that has a most recent file and was classified stale; a
successful (`.ok`) outcome also shows the traversal continued to the end
rather than aborting. -/
theorem c5_no_files_skipped :
    (∀ (now : Int) (acc : List String) (vid tag : String),
        processNode now acc ⟨vid, tag, none⟩ = acc)
    ∧ (∀ (pkgs : List GPackage) (plan : Nat → Nat → Nat) (now : Int)
        (fI fO : Nat) (out : List String) (tr : List QueryVars),
        runOuter (serveQ pkgs plan) now fI fO initState = .ok out tr →
        ∀ x ∈ out, ∃ p ∈ pkgs, ∃ v ∈ p.versions, x = v.id ∧
          ∃ t, v.file = some t ∧ isStale v.version t now = true) := by
  constructor
  · intro now acc vid tag
    rfl
  · intro pkgs plan now fI fO out tr h x hx
    rcases runOuter_mem (serveQ pkgs plan) now fI fO initState out tr h x hx
      with hmem | hc
    · simp [initState] at hmem
    · rcases hc with ⟨vars, res, pkg, hq, hhead, v, hv, hrest⟩
      have hres : serve pkgs plan vars = res := Option.some.inj hq
      rcases serve_head pkgs plan vars pkg (by rw [hres]; exact hhead) with
        ⟨p, hp, hsub⟩
      exact ⟨p, hp, v, hsub v hv, hrest⟩

/-- Witness for C5 on the dataset `w5Pkgs`. -/
theorem c5_witness :
    ∃ p ∈ w5Pkgs, ∃ v ∈ p.versions, "w5s" = v.id ∧
      ∃ t, v.file = some t ∧ isStale v.version t exNow = true :=
  c5_no_files_skipped.2 w5Pkgs planOne exNow 9 9 ["w5s"] [⟨none, none⟩]
    (by decide) "w5s" (by simp)

/-- Claim C6: a failed query — on the first page or any later one — makes
the run abort fatally at once: the inner loop returns the fatal outcome
directly, the whole program result is `.fatal` (so no `STALE_VERSIONS`
value is published), and on `laterFailQ` — whose first versions page
succeeds and serves the stale version `q1` (`pr-9` is indeed stale, last
conjunct) before the second page fails — the already-accumulated id is
discarded: the result carries no value at all. -/
theorem c6_fatal_on_query_failure :
    (∀ (query : QueryVars → Option QueryResult) (now : Int) (fI : Nat)
        (st : LoopState), query (queryVarsOf st) = none →
        runInner query now (fI + 1) st = .fatal [queryVarsOf st])
    ∧ (∀ (query : QueryVars → Option QueryResult) (now : Int) (fI fO : Nat),
        query ⟨none, none⟩ = none →
        runProgram query now (fI + 1) (fO + 1) = .fatal)
    ∧ runProgram laterFailQ exNow 9 9 = .fatal
    ∧ isStale "pr-9" 0 exNow = true := by
  refine ⟨fun query now fI st hq => runInner_fatal query now fI st hq,
    fun query now fI fO hq => ?_, by decide, by decide⟩
  have h1 := runInner_fatal query now fI initState hq
  simp only [runProgram, runOuter, h1]

/-- Witness for C6 at a query function that always fails. -/
theorem c6_witness :
    runInner (fun _ => none) 0 1 initState
      = .fatal [queryVarsOf initState] :=
  c6_fatal_on_query_failure.1 (fun _ => none) 0 0 initState rfl

/-- Claim C7 is false as stated: after a fetched packages page with zero
nodes whose has-more flag is true, the outer loop does NOT terminate — the
empty-page `break` only leaves the inner loop, the outer loop then reads
the has-more flag, advances the packages cursor and issues a further
query. Against `emptyMorePages` (every response empty with has-more true)
the first response is empty with has-more true, yet a second query — with
an advanced packages cursor — is issued. -/
theorem c7_counterexample :
    emptyMorePages ⟨none, none⟩ = some ⟨[], ⟨1, true⟩⟩
    ∧ runTrace emptyMorePages 0 9 2 = [⟨none, none⟩, ⟨some 1, none⟩] := by
  refine ⟨by decide, by decide⟩

/-- Claim C7 amended: an empty packages page breaks the inner loop only;
the run then terminates with the state's accumulated versions, after that
single query, exactly when the empty page's has-more flag is false. When
the flag stays true the loop keeps issuing queries (one per unit of outer
fuel, three with fuel 3). -/
theorem c7_empty_page_amended :
    (∀ (query : QueryVars → Option QueryResult) (now : Int) (fI fO : Nat)
        (st : LoopState) (res : QueryResult),
        query (queryVarsOf st) = some res → res.packageNodes = [] →
        res.packagesPageInfo.hasNextPage = false →
        runOuter query now (fI + 1) (fO + 1) st
          = .ok st.versions [queryVarsOf st])
    ∧ (runTrace emptyMorePages 0 9 3).length = 3 := by
  constructor
  · intro query now fI fO st res hq hn hh
    have hi : runInner query now (fI + 1) st
        = .pageDone st res [queryVarsOf st] := by
      simp only [runInner, hq, hn]
    simp [runOuter, hi, hh]
  · decide

/-- Witness for the amended C7 at a server whose empty page carries a
false has-more flag. -/
theorem c7_witness :
    runOuter (fun _ => some ⟨[], ⟨0, false⟩⟩) 0 1 1 initState
      = .ok initState.versions [queryVarsOf initState] :=
  c7_empty_page_amended.1 (fun _ => some ⟨[], ⟨0, false⟩⟩) 0 0 0 initState
    ⟨[], ⟨0, false⟩⟩ rfl rfl rfl

/-- Claim C8: a successful run publishes the accumulated stale ids joined
by a comma and a space, in traversal order; an empty stale set publishes
the empty string and is still a success (`.published`, not `.fatal`). -/
theorem c8_output_serialization :
    (∀ (query : QueryVars → Option QueryResult) (now : Int) (fI fO : Nat)
        (out : List String) (tr : List QueryVars),
        runOuter query now fI fO initState = .ok out tr →
        runProgram query now fI fO
          = .published (String.intercalate ", " out))
    ∧ runProgram (serveQ [] planOne) 0 9 9 = .published ""
    ∧ runProgram (serveQ joinPkgs planOne) exNow 9 9
        = .published "s1, s2" := by
  refine ⟨fun query now fI fO out tr h => ?_, by decide, by decide⟩
  simp only [runProgram, h]

/-- Witness for C8 on the empty repository. -/
theorem c8_witness :
    runProgram (serveQ [] planOne) 0 1 1
      = .published (String.intercalate ", " []) :=
  c8_output_serialization.1 (serveQ [] planOne) 0 1 1 [] [⟨none, none⟩]
    (by decide)

/-- Claim C9: a non-empty repository identifier with no `/` delimiter
splits into a single element, so taking index 1 is out of bounds — the
run ends in `panicIndexOOB` with no query issued (empty trace) and nothing
published; an empty token or empty repository identifier is an explicit
fatal startup error, likewise with no query issued. -/
theorem c9_config_errors :
    (∀ token repo : String, token ≠ "" → repo ≠ "" →
        (splitOnChar '/' repo.data).length = 1 →
        parseConfig token repo = .panicIndexOOB
        ∧ ∀ (query : QueryVars → Option QueryResult) (now : Int)
            (fI fO : Nat),
            runAction token repo query now fI fO = (.panicOOB, []))
    ∧ (∀ repo : String, parseConfig "" repo = .fatalEmptyToken)
    ∧ (∀ token : String, token ≠ "" →
        parseConfig token "" = .fatalEmptyRepo)
    ∧ (∀ (repo : String) (query : QueryVars → Option QueryResult)
        (now : Int) (fI fO : Nat),
        runAction "" repo query now fI fO = (.configFatal, []))
    ∧ (∀ token : String, token ≠ "" →
        ∀ (query : QueryVars → Option QueryResult) (now : Int)
          (fI fO : Nat),
        runAction token "" query now fI fO = (.configFatal, [])) := by
  refine ⟨?_, ?_, ?_, ?_, ?_⟩
  · intro token repo ht hr hl
    have hp : parseConfig token repo = .panicIndexOOB := by
      unfold parseConfig
      rw [if_neg ht, if_neg hr]
      cases hsp : splitOnChar '/' repo.data with
      | nil => rfl
      | cons a t =>
        cases t with
        | nil => rfl
        | cons b t2 => rw [hsp] at hl; simp at hl
    refine ⟨hp, ?_⟩
    intro query now fI fO
    unfold runAction
    rw [hp]
  · intro repo
    simp [parseConfig]
  · intro token ht
    simp [parseConfig, ht]
  · intro repo query now fI fO
    simp [runAction, parseConfig]
  · intro token ht query now fI fO
    simp [runAction, parseConfig, ht]

/-- Witness for C9 on a delimiter-less repository string. -/
theorem c9_witness :
    parseConfig "token" "ownername" = .panicIndexOOB
    ∧ runAction "token" "ownername" (fun _ => none) 0 0 0
        = (.panicOOB, []) := by
  have h := c9_config_errors.1 "token" "ownername" (by decide) (by decide)
    (by decide)
  exact ⟨h.1, h.2 (fun _ => none) 0 0 0⟩

/-- Claim C10: the versions cursor is never reset between packages. On
`exPkgs` with `P1`'s versions split across two pages, the trace shows the
first query for the second package (packages cursor `some 1`) carrying the
previous package's last versions end cursor `some 1` instead of `none`. -/
theorem c10_versions_cursor_leak :
    runTrace (serveQ exPkgs planSplit) exNow 9 9 =
      [⟨none, none⟩, ⟨none, some 1⟩, ⟨some 1, some 1⟩]
    ∧ ∃ vars ∈ runTrace (serveQ exPkgs planSplit) exNow 9 9,
        vars.packagesCursor = some 1 ∧ vars.versionsCursor ≠ none := by
  refine ⟨by decide, ⟨⟨some 1, some 1⟩, by decide, by decide, by decide⟩⟩

end StalePackages
